import Mathlib

/-!
# Verification of the pointfoot MLP-history controller

Shallow embedding of `pointfoot_controller_mlp_history.py` (class
`PointfootController`): the action safety clamp, the joint remapping
(inbound `align_robot_state` and outbound `set_joint_command_aligned`),
the observation-history assembly of `compute_observation`, and the
STAND/WALK control-loop step `update`.

Numeric values are embedded as rationals (`ℚ`); the external
neural-network inference sessions (policy and encoder) are opaque
vector-to-vector functions, passed as parameters; the scipy rotation
and trigonometric preprocessing of the IMU data (quaternion → Euler →
rotation matrix, sin/cos of the gait phase) is non-rational and its
per-tick numeric results are taken as inputs of the tick.
-/

namespace Pointfoot

/-! ## Action safety clamp (handle_walk_mode, per-joint loop)

Per joint `i` the source computes
`action_min = q_i - q0_i + (damping*dq_i - user_torque_limit)/stiffness`,
`action_max = q_i - q0_i + (damping*dq_i + user_torque_limit)/stiffness`,
`actions[i] = max(action_min/action_scale_pos, min(action_max/action_scale_pos, actions[i]))`,
`pos_des = actions[i]*action_scale_pos + init_joint_angles[i]`. -/

/-- The per-joint action clamp of `handle_walk_mode`:
`max(action_min/scale, min(action_max/scale, a))` with the
state-dependent torque-derived bounds. -/
def clampAction (stiffness damping torqueLimit actionScalePos q0 q dq a : ℚ) : ℚ :=
  let actionMin := q - q0 + (damping * dq - torqueLimit) / stiffness
  let actionMax := q - q0 + (damping * dq + torqueLimit) / stiffness
  max (actionMin / actionScalePos) (min (actionMax / actionScalePos) a)

/-- The commanded position computed from a (clamped) action:
`pos_des = a * action_scale_pos + q0`. -/
def posDes (actionScalePos q0 a : ℚ) : ℚ := a * actionScalePos + q0

/-- The PD control law: `torque = stiffness*(pos_des - q) - damping*dq`. -/
def pdTorque (stiffness damping pdes q dq : ℚ) : ℚ :=
  stiffness * (pdes - q) - damping * dq

/-! ## Joint remapping

`align_robot_state` (inbound sensor alignment) and
`set_joint_command_aligned` (outbound command remapping). -/

/-- Measured robot state: per-joint position, velocity and torque lists
(`RobotState.q`, `.dq`, `.tau` in the source). -/
structure RobotStateV where
  q : List ℚ
  dq : List ℚ
  tau : List ℚ
deriving DecidableEq, Repr

/-- The inbound sensor alignment `align_robot_state`: a deep copy of the
raw state with `aligned[1] := raw[3]`, `aligned[2] := raw[1]`,
`aligned[3] := raw[4]`, `aligned[4] := raw[2]`, applied identically to
`q`, `dq` and `tau`; every assignment reads from the original raw state. -/
def align_robot_state (rs : RobotStateV) : RobotStateV where
  q := ((((rs.q.set 1 (rs.q.getD 3 0)).set 2 (rs.q.getD 1 0)).set 3
            (rs.q.getD 4 0)).set 4 (rs.q.getD 2 0))
  dq := ((((rs.dq.set 1 (rs.dq.getD 3 0)).set 2 (rs.dq.getD 1 0)).set 3
            (rs.dq.getD 4 0)).set 4 (rs.dq.getD 2 0))
  tau := ((((rs.tau.set 1 (rs.tau.getD 3 0)).set 2 (rs.tau.getD 1 0)).set 3
            (rs.tau.getD 4 0)).set 4 (rs.tau.getD 2 0))

/-- The outbound command write `set_joint_command_aligned`, acting on the
command's `q` array: logical index 2 writes slot 1, 4 writes slot 2,
1 writes slot 3, 3 writes slot 4, anything else writes its own slot. -/
def set_joint_command_aligned (cmdq : List ℚ) (joint_index : ℕ) (position : ℚ) : List ℚ :=
  if joint_index = 2 then cmdq.set 1 position
  else if joint_index = 4 then cmdq.set 2 position
  else if joint_index = 1 then cmdq.set 3 position
  else if joint_index = 3 then cmdq.set 4 position
  else cmdq.set joint_index position

/-- The logical-to-physical slot map realized by `set_joint_command_aligned`. -/
def toPhysical (i : ℕ) : ℕ :=
  if i = 2 then 1 else if i = 4 then 2 else if i = 1 then 3 else if i = 3 then 4 else i

/-- The physical-to-logical map realized by `align_robot_state`: `toLogical p`
is the logical index at which the raw (physical) entry `p` lands after the
inbound alignment (`aligned[1]=raw[3]`, `aligned[2]=raw[1]`,
`aligned[3]=raw[4]`, `aligned[4]=raw[2]`). -/
def toLogical (p : ℕ) : ℕ :=
  if p = 3 then 1 else if p = 1 then 2 else if p = 4 then 3 else if p = 2 then 4 else p

/-! ## Observation history assembly (compute_observation)

Eight per-channel deques of capacity `observations_history_length`, the
pre-fill while loop, the normal push, flattening in the fixed channel
order, clipping, the encoder call, and the final concatenation. The
quaternion/rotation preprocessing (scipy) and the gait-phase sin/cos are
non-rational; their per-tick numeric results enter as inputs. -/

/-- Static configuration values read from the YAML file. -/
structure Cfg where
  initJointAngles : List ℚ
  stiffness : ℚ
  damping : ℚ
  userTorqueLimit : ℚ
  actionScalePos : ℚ
  clipActions : ℚ
  clipObservations : ℚ
  decimation : ℕ
  historyLength : ℕ
  standDuration : ℚ
  loopFrequency : ℚ
  angVelScale : ℚ
  dofPosScale : ℚ
  dofVelScale : ℚ
  linVelXScale : ℚ
  linVelYScale : ℚ
  angVelYawScale : ℚ

/-- The eight per-tick sample vectors pushed into the history deques. -/
structure ObsSamples where
  baseAngVel : List ℚ
  projectedGravity : List ℚ
  jointPositions : List ℚ
  jointVelocities : List ℚ
  actions : List ℚ
  scaledCommands : List ℚ
  gaitPhase : List ℚ
  gaitCommand : List ℚ
deriving DecidableEq, Repr

/-- The eight history deques (`deque(maxlen=history_length)` each),
oldest entry first. -/
structure Buffers where
  baseAngVel : List (List ℚ)
  projectedGravity : List (List ℚ)
  jointPositions : List (List ℚ)
  jointVelocities : List (List ℚ)
  actions : List (List ℚ)
  scaledCommands : List (List ℚ)
  gaitPhase : List (List ℚ)
  gaitCommand : List (List ℚ)
deriving DecidableEq, Repr

/-- The empty deques created in `__init__`. -/
def emptyBuffers : Buffers := ⟨[], [], [], [], [], [], [], []⟩

/-- Append to a `deque(maxlen=cap)`: if the deque is full the oldest
(leftmost) entry is evicted. -/
def pushQueue (cap : ℕ) (buf : List (List ℚ)) (x : List ℚ) : List (List ℚ) :=
  if buf.length < cap then buf ++ [x] else (buf ++ [x]).drop (buf.length + 1 - cap)

/-- One simultaneous append of the tick's samples to all eight deques. -/
def pushAll (cap : ℕ) (bufs : Buffers) (s : ObsSamples) : Buffers where
  baseAngVel := pushQueue cap bufs.baseAngVel s.baseAngVel
  projectedGravity := pushQueue cap bufs.projectedGravity s.projectedGravity
  jointPositions := pushQueue cap bufs.jointPositions s.jointPositions
  jointVelocities := pushQueue cap bufs.jointVelocities s.jointVelocities
  actions := pushQueue cap bufs.actions s.actions
  scaledCommands := pushQueue cap bufs.scaledCommands s.scaledCommands
  gaitPhase := pushQueue cap bufs.gaitPhase s.gaitPhase
  gaitCommand := pushQueue cap bufs.gaitCommand s.gaitCommand

/-- The pre-fill while loop of `compute_observation`:
`while len(base_ang_vel_queue) < history_length: append current sample to
all eight deques`. Each iteration below capacity grows the tested deque by
one entry, so the loop runs at most `cap` times; `fuel = cap` therefore
realizes the loop exactly. -/
def fillLoop (cap : ℕ) (s : ObsSamples) : ℕ → Buffers → Buffers
  | 0, bufs => bufs
  | fuel + 1, bufs =>
    if bufs.baseAngVel.length < cap then fillLoop cap s fuel (pushAll cap bufs s) else bufs

/-- The per-tick deque update of `compute_observation`: pre-fill while loop,
then one normal push of the same sample. -/
def tickBuffers (cap : ℕ) (s : ObsSamples) (bufs : Buffers) : Buffers :=
  pushAll cap (fillLoop cap s cap bufs) s

/-- Flattening and concatenation of the eight deques in the fixed channel
order of the source. -/
def historyVec (bufs : Buffers) : List ℚ :=
  bufs.baseAngVel.flatten ++ bufs.projectedGravity.flatten ++ bufs.jointPositions.flatten ++
    bufs.jointVelocities.flatten ++ bufs.actions.flatten ++ bufs.scaledCommands.flatten ++
      bufs.gaitPhase.flatten ++ bufs.gaitCommand.flatten

/-- Clipping (`np.clip`) of every element to the symmetric bound
`[-clip_observations, clip_observations]`. -/
def clipObs (bound : ℚ) (v : List ℚ) : List ℚ :=
  v.map fun x => min bound (max (-bound) x)

/-- Sample construction of `compute_observation`: angular velocity scaled by
`obs_scales.ang_vel`, joint-position deltas from the neutral pose scaled by
`obs_scales.dof_pos`, joint velocities scaled by `obs_scales.dof_vel`, the
command vector scaled by the diagonal per-axis matrix, the last commanded
action and the raw gait command carried unchanged. The post-rotation
angular velocity, projected gravity and the sin/cos gait-phase pair are the
tick's non-rational inputs. -/
def obsSamplesOf (cfg : Cfg) (baseAngVel projectedGravity gaitPhase : List ℚ)
    (jointPositions jointVelocities lastActions commands gaitCommand : List ℚ) :
    ObsSamples where
  baseAngVel := baseAngVel.map (· * cfg.angVelScale)
  projectedGravity := projectedGravity
  jointPositions :=
    List.zipWith (fun a b => (a - b) * cfg.dofPosScale) jointPositions cfg.initJointAngles
  jointVelocities := jointVelocities.map (· * cfg.dofVelScale)
  actions := lastActions
  scaledCommands :=
    List.zipWith (· * ·) [cfg.linVelXScale, cfg.linVelYScale, cfg.angVelYawScale] commands
  gaitPhase := gaitPhase
  gaitCommand := gaitCommand

/-- The tail of `compute_observation`: update the deques, flatten in fixed
order, clip, call the encoder on the clipped vector, and store
`history_obs ++ encoder_latent` as the final observation (the source
concatenates the unclipped `history_obs`, not the clipped vector). -/
def compute_observation (cfg : Cfg) (enc : List ℚ → List ℚ) (s : ObsSamples)
    (bufs : Buffers) : Buffers × List ℚ :=
  let bufs2 := tickBuffers cfg.historyLength s bufs
  let history_obs := historyVec bufs2
  let observations := clipObs cfg.clipObservations history_obs
  let encoder_latent := enc observations
  (bufs2, history_obs ++ encoder_latent)

/-- A concrete configuration used for concrete evaluations: the Scenario C/D
constants of the spec (stand duration 2 s, loop frequency 500 Hz, stiffness
30, damping 1, torque limit 20, action scale 1/2), six joints at neutral 0,
history length 1, decimation 4, clip bounds 1 (actions) and 100
(observations), unit observation scales. -/
def cfgX : Cfg where
  initJointAngles := [0, 0, 0, 0, 0, 0]
  stiffness := 30
  damping := 1
  userTorqueLimit := 20
  actionScalePos := 1/2
  clipActions := 1
  clipObservations := 100
  decimation := 4
  historyLength := 1
  standDuration := 2
  loopFrequency := 500
  angVelScale := 1
  dofPosScale := 1
  dofVelScale := 1
  linVelXScale := 1
  linVelYScale := 1
  angVelYawScale := 1

/-- A concrete observation sample whose first channel entry (200) exceeds
the configured observation clip bound (100). -/
def sampleX : ObsSamples where
  baseAngVel := [200]
  projectedGravity := []
  jointPositions := []
  jointVelocities := []
  actions := []
  scaledCommands := []
  gaitPhase := []
  gaitCommand := []

/-- A trivial encoder returning a one-element latent vector. -/
def encX : List ℚ → List ℚ := fun _ => [0]

/-- All eight deques hold exactly `n` entries. -/
def bufLens (bufs : Buffers) (n : ℕ) : Prop :=
  bufs.baseAngVel.length = n ∧ bufs.projectedGravity.length = n ∧
    bufs.jointPositions.length = n ∧ bufs.jointVelocities.length = n ∧
      bufs.actions.length = n ∧ bufs.scaledCommands.length = n ∧
        bufs.gaitPhase.length = n ∧ bufs.gaitCommand.length = n

/-! ## Control-loop state machine (handle_stand_mode, handle_walk_mode, update)

The STAND/WALK dispatch, the stand interpolation with `stand_percent`,
the decimated inference pipeline of WALK mode, the per-joint safety-clamp
loop, and the loop counter. The policy and encoder sessions are opaque
vector-to-vector functions; each tick's sensor snapshot and the
non-rational IMU/trig values enter through a `TickEnv`. -/

/-- The controller mode: STAND initially, WALK after standing up. -/
inductive Mode where
  | STAND
  | WALK
deriving DecidableEq, Repr

/-- The published robot command (`robot_cmd`): per-joint mode, target
position, velocity, torque, Kp and Kd arrays. -/
structure RobotCmd where
  mode : List ℚ
  q : List ℚ
  dq : List ℚ
  tau : List ℚ
  Kp : List ℚ
  Kd : List ℚ
deriving DecidableEq, Repr

/-- Per-tick inputs: the snapshot of the shared robot state taken at the
start of the tick, the post-rotation angular velocity and projected
gravity (scipy rotations, non-rational upstream), the sin/cos gait-phase
pair (trigonometric) and the joystick-derived command vector. -/
structure TickEnv where
  robotState : RobotStateV
  baseAngVel : List ℚ
  projectedGravity : List ℚ
  gaitPhase : List ℚ
  commands : List ℚ

/-- The mutable controller state across ticks. -/
structure St where
  mode : Mode
  standPercent : ℚ
  loopCount : ℕ
  actions : List ℚ
  lastActions : List ℚ
  observations : List ℚ
  bufs : Buffers
  robotCmd : RobotCmd
  robotStateTmp : RobotStateV
  defaultJointAngles : List ℚ

/-- The constant gait command set in `__init__`:
frequency 2.0 Hz, phase offset 0.5, contact duration 0.5. -/
def gaitCommandConst : List ℚ := [2, 1/2, 1/2]

/-- Stand handler `handle_stand_mode`: while `stand_percent < 1`, write the interpolated
target `default*(1-p) + init*p` for every joint through the outbound
remap and increment `stand_percent` by `1/(stand_duration*loop_frequency)`;
once `stand_percent ≥ 1`, switch the mode to WALK (and do nothing else). -/
def handle_stand_mode (cfg : Cfg) (s : St) : St :=
  if s.standPercent < 1 then
    let q' := (List.range cfg.initJointAngles.length).foldl
      (fun qacc j =>
        set_joint_command_aligned qacc j
          (s.defaultJointAngles.getD j 0 * (1 - s.standPercent) +
            cfg.initJointAngles.getD j 0 * s.standPercent)) s.robotCmd.q
    { s with robotCmd := { s.robotCmd with q := q' },
             standPercent :=
               s.standPercent + 1 / (cfg.standDuration * cfg.loopFrequency) }
  else
    { s with mode := Mode.WALK }

/-- One iteration of the per-joint loop of `handle_walk_mode`, acting on the
triple (actions, last_actions, robot_cmd.q): clamp the stored action to the
live torque-derived bounds, command the resulting position through the
outbound remap, and record the clamped action in `last_actions`. -/
def walkJointStep (cfg : Cfg) (rsTmp : RobotStateV) (acc : List ℚ × List ℚ × List ℚ)
    (i : ℕ) : List ℚ × List ℚ × List ℚ :=
  let a := clampAction cfg.stiffness cfg.damping cfg.userTorqueLimit cfg.actionScalePos
    (cfg.initJointAngles.getD i 0) (rsTmp.q.getD i 0) (rsTmp.dq.getD i 0)
    (acc.1.getD i 0)
  (acc.1.set i a, acc.2.1.set i a,
    set_joint_command_aligned acc.2.2 i (posDes cfg.actionScalePos (cfg.initJointAngles.getD i 0) a))

/-- Walk handler `handle_walk_mode`: align the tick's state snapshot; every
`decimation`-th tick run `compute_observation`, `compute_actions` (the
policy) and the symmetric action clip; on every tick run the per-joint
safety-clamp loop over the live aligned state. -/
def handle_walk_mode (cfg : Cfg) (policy enc : List ℚ → List ℚ) (env : TickEnv)
    (s : St) : St :=
  let rsTmp := align_robot_state env.robotState
  let s1 := { s with robotStateTmp := rsTmp }
  let s2 :=
    if s1.loopCount % cfg.decimation = 0 then
      let samples := obsSamplesOf cfg env.baseAngVel env.projectedGravity env.gaitPhase
        rsTmp.q rsTmp.dq s1.lastActions env.commands gaitCommandConst
      let r := compute_observation cfg enc samples s1.bufs
      let acts := (policy r.2).map fun a => min cfg.clipActions (max (-cfg.clipActions) a)
      { s1 with bufs := r.1, observations := r.2, actions := acts }
    else s1
  let t := (List.range rsTmp.q.length).foldl (walkJointStep cfg rsTmp)
    (s2.actions, s2.lastActions, s2.robotCmd.q)
  { s2 with actions := t.1, lastActions := t.2.1,
            robotCmd := { s2.robotCmd with q := t.2.2 } }

/-- Tick step `update`: dispatch on the mode, then increment the loop counter
(the command publication sends the `robotCmd` field). -/
def update (cfg : Cfg) (policy enc : List ℚ → List ℚ) (env : TickEnv) (s : St) : St :=
  let s' :=
    if s.mode = Mode.STAND then handle_stand_mode cfg s
    else if s.mode = Mode.WALK then handle_walk_mode cfg policy enc env s
    else s
  { s' with loopCount := s'.loopCount + 1 }

/-- The controller state after `__init__`, `load_config` and the
pre-loop lines of `run`: STAND mode, `stand_percent` already incremented
once from 0, zeroed actions and observations, empty deques, and the
command arrays initialized with zeros except `Kp`/`Kd` at the configured
stiffness/damping. -/
def initSt (cfg : Cfg) (actionsSize obsTotal : ℕ) : St where
  mode := Mode.STAND
  standPercent := 0 + 1 / (cfg.standDuration * cfg.loopFrequency)
  loopCount := 0
  actions := List.replicate actionsSize 0
  lastActions := List.replicate actionsSize 0
  observations := List.replicate obsTotal 0
  bufs := emptyBuffers
  robotCmd :=
    { mode := List.replicate cfg.initJointAngles.length 0,
      q := List.replicate cfg.initJointAngles.length 0,
      dq := List.replicate cfg.initJointAngles.length 0,
      tau := List.replicate cfg.initJointAngles.length 0,
      Kp := List.replicate cfg.initJointAngles.length cfg.stiffness,
      Kd := List.replicate cfg.initJointAngles.length cfg.damping }
  robotStateTmp :=
    { q := List.replicate cfg.initJointAngles.length 0,
      dq := List.replicate cfg.initJointAngles.length 0,
      tau := List.replicate cfg.initJointAngles.length 0 }
  defaultJointAngles := List.replicate cfg.initJointAngles.length 0

/-- Iteration of the control loop `n` times; tick `k` (counting from 0) consumes
the per-tick inputs `envs k`. -/
def runTicks (cfg : Cfg) (policy enc : List ℚ → List ℚ) (envs : ℕ → TickEnv) :
    ℕ → St → St
  | 0, s => s
  | n + 1, s => update cfg policy enc (envs n) (runTicks cfg policy enc envs n s)

/-- A trivial per-tick input: a six-joint zero state snapshot, zero IMU
values, gait phase (0, 1), zero command vector. -/
def envX : TickEnv where
  robotState :=
    { q := [0, 0, 0, 0, 0, 0], dq := [0, 0, 0, 0, 0, 0], tau := [0, 0, 0, 0, 0, 0] }
  baseAngVel := [0, 0, 0]
  projectedGravity := [0, 0, -1]
  gaitPhase := [0, 1]
  commands := [0, 0, 0]

/-- A second trivial encoder/policy, distinct from `encX`, used to show that
non-inference ticks do not consult the networks. -/
def encX2 : List ℚ → List ℚ := fun _ => [1]

/-- A concrete WALK-mode state on a non-inference tick (loop count 1,
decimation 4) whose stored action 10 violates the live clamp bounds. -/
def sW : St :=
  { initSt cfgX 6 16 with
      mode := Mode.WALK,
      loopCount := 1,
      actions := [10, 0, 0, 0, 0, 0] }

/-- The action-vector component of the per-joint WALK loop: each index of
the stored action vector is re-clamped in place against the live aligned
state's torque-derived bounds. -/
def clampStep (cfg : Cfg) (rs : RobotStateV) (acc : List ℚ) (i : ℕ) : List ℚ :=
  acc.set i (clampAction cfg.stiffness cfg.damping cfg.userTorqueLimit cfg.actionScalePos
    (cfg.initJointAngles.getD i 0) (rs.q.getD i 0) (rs.dq.getD i 0) (acc.getD i 0))

/-- The stored action vector after the per-joint WALK loop over the live
aligned state `rs`. -/
def clampActions (cfg : Cfg) (rs : RobotStateV) (acts : List ℚ) : List ℚ :=
  (List.range rs.q.length).foldl (clampStep cfg rs) acts

/-! ## Theorems -/

/-- C1: for every joint, after the action safety clamp (with `stiffness > 0`,
`userTorqueLimit ≥ 0`, `actionScalePos > 0`), the commanded position
`a*actionScalePos + q0` fed through the PD law with the same measured state
`(q, dq)` yields a torque of magnitude at most `userTorqueLimit`, for all
state values and any raw action `a`. -/
theorem clampAction_pdTorque_le (stiffness damping torqueLimit actionScalePos q0 q dq a : ℚ)
    (hs : 0 < stiffness) (hL : 0 ≤ torqueLimit) (hsc : 0 < actionScalePos) :
    |pdTorque stiffness damping
        (posDes actionScalePos q0
          (clampAction stiffness damping torqueLimit actionScalePos q0 q dq a)) q dq|
      ≤ torqueLimit := by
  have hs' : stiffness ≠ 0 := ne_of_gt hs
  have hsc' : actionScalePos ≠ 0 := ne_of_gt hsc
  simp only [pdTorque, posDes, clampAction]
  set amin := q - q0 + (damping * dq - torqueLimit) / stiffness with hmin
  set amax := q - q0 + (damping * dq + torqueLimit) / stiffness with hmax
  set c := max (amin / actionScalePos) (min (amax / actionScalePos) a) with hc
  have hmm : amin ≤ amax := by
    have hdiv : (damping * dq - torqueLimit) / stiffness
        ≤ (damping * dq + torqueLimit) / stiffness :=
      (div_le_div_iff_of_pos_right hs).mpr (by linarith)
    rw [hmin, hmax]; linarith
  have h1 : amin / actionScalePos ≤ c := le_max_left _ _
  have h2 : c ≤ amax / actionScalePos := by
    exact max_le ((div_le_div_iff_of_pos_right hsc).mpr hmm) (min_le_left _ _)
  have h1' : amin ≤ c * actionScalePos := by
    have h := mul_le_mul_of_nonneg_right h1 hsc.le
    rwa [div_mul_cancel₀ _ hsc'] at h
  have h2' : c * actionScalePos ≤ amax := by
    have h := mul_le_mul_of_nonneg_right h2 hsc.le
    rwa [div_mul_cancel₀ _ hsc'] at h
  have e1 : stiffness * amin = stiffness * (q - q0) + (damping * dq - torqueLimit) := by
    rw [hmin, mul_add, mul_div_cancel₀ _ hs']
  have e2 : stiffness * amax = stiffness * (q - q0) + (damping * dq + torqueLimit) := by
    rw [hmax, mul_add, mul_div_cancel₀ _ hs']
  have k1 := mul_le_mul_of_nonneg_left h1' hs.le
  have k2 := mul_le_mul_of_nonneg_left h2' hs.le
  rw [abs_le]
  constructor
  · nlinarith [k1, e1]
  · nlinarith [k2, e2]

/-- Witness for C1 at a concrete input (Scenario D numbers:
stiffness 30, damping 1, torque limit 20, action scale 1/2, `q = q0`,
`dq = 0`, raw action 10). -/
theorem clampAction_pdTorque_le_witness :
    (0 : ℚ) < 30 ∧ (0 : ℚ) ≤ 20 ∧ (0 : ℚ) < 1/2 ∧
      |pdTorque 30 1 (posDes (1/2) 0 (clampAction 30 1 20 (1/2) 0 0 0 10)) 0 0| ≤ 20 :=
  ⟨by norm_num, by norm_num, by norm_num,
    clampAction_pdTorque_le 30 1 20 (1/2) 0 0 0 10 (by norm_num) (by norm_num) (by norm_num)⟩

/-- The write `set_joint_command_aligned` is exactly a write at the `toPhysical` slot. -/
theorem set_joint_command_aligned_eq_set (cmdq : List ℚ) (i : ℕ) (v : ℚ) :
    set_joint_command_aligned cmdq i v = cmdq.set (toPhysical i) v := by
  unfold set_joint_command_aligned toPhysical
  split_ifs <;> rfl

/-- Decomposition of a list of length at least five into five heads and a tail. -/
theorem exists_cons5 {α : Type} (l : List α) (h : 5 ≤ l.length) :
    ∃ a b c d e t, l = a :: b :: c :: d :: e :: t := by
  rcases l with _ | ⟨a, l⟩
  · simp at h
  rcases l with _ | ⟨b, l⟩
  · simp at h
  rcases l with _ | ⟨c, l⟩
  · simp at h
  rcases l with _ | ⟨d, l⟩
  · simp at h
  rcases l with _ | ⟨e, l⟩
  · simp at h
  exact ⟨a, b, c, d, e, l, rfl⟩

/-- Entry `j` of the aligned `q` list is the raw entry at the inbound source
slot, for a state with at least five joints (shared characterization of
`align_robot_state` on the `q` component). -/
theorem align_robot_state_q_getD (rs : RobotStateV) (h : 5 ≤ rs.q.length) (j : ℕ) :
    (align_robot_state rs).q.getD j 0 =
      rs.q.getD (if j = 1 then 3 else if j = 2 then 1 else if j = 3 then 4
                 else if j = 4 then 2 else j) 0 := by
  obtain ⟨a, b, c, d, e, t, hq⟩ := exists_cons5 rs.q h
  rcases rs with ⟨q, dq, tau⟩
  simp only at hq
  subst hq
  simp only [align_robot_state, List.set, List.getD, List.get?]
  rcases j with _ | _ | _ | _ | _ | j <;> simp [List.getD]

/-- C4: the outbound mapping is the exact inverse of the inbound mapping:
for every joint index `i`, writing through the outbound command remapping
and reading back through the inbound sensor alignment returns to the same
logical index, `toLogical (toPhysical i) = i`. -/
theorem toLogical_toPhysical (i : ℕ) : toLogical (toPhysical i) = i := by
  unfold toPhysical toLogical
  split_ifs <;> omega

/-- C5 counterexample: the outbound table maps logical 2 to physical slot 1
(not 4) and logical 3 to physical slot 4 (not 1), refuting the claimed
table `1→3, 2→4, 3→1, 4→2`. -/
theorem toPhysical_ne_claimed_table :
    toPhysical 2 = 1 ∧ toPhysical 3 = 4 ∧ (1 : ℕ) ≠ 4 ∧ (4 : ℕ) ≠ 1 := by
  refine ⟨rfl, rfl, by decide, by decide⟩

/-- C5 (amended): the outbound joint remapping realized by
`set_joint_command_aligned` is the table `1→3, 2→1, 3→4, 4→2`, with index 0
and every index ≥ 5 identity-mapped. -/
theorem toPhysical_table :
    toPhysical 1 = 3 ∧ toPhysical 2 = 1 ∧ toPhysical 3 = 4 ∧ toPhysical 4 = 2 ∧
      toPhysical 0 = 0 ∧ (∀ i, 5 ≤ i → toPhysical i = i) ∧
      ∀ (cmdq : List ℚ) (i : ℕ) (v : ℚ),
        set_joint_command_aligned cmdq i v = cmdq.set (toPhysical i) v := by
  refine ⟨rfl, rfl, rfl, rfl, rfl, ?_, set_joint_command_aligned_eq_set⟩
  intro i hi
  unfold toPhysical
  split_ifs <;> omega

/-- Witness for C5 (amended) at the concrete index 7. -/
theorem toPhysical_table_witness : (5 : ℕ) ≤ 7 ∧ toPhysical 7 = 7 :=
  ⟨by decide, toPhysical_table.2.2.2.2.2.1 7 (by decide)⟩

/-- C6: the inbound sensor alignment applies the fixed permutation
`aligned[1]=raw[3]`, `aligned[2]=raw[1]`, `aligned[3]=raw[4]`,
`aligned[4]=raw[2]` identically to `q`, `dq` and `tau`, leaving index 0 and
all indices ≥ 5 unchanged; in particular, for 6 logical joints, raw
`q=[0.1,0.2,0.3,0.4,0.5,0.6]` aligns to `q=[0.1,0.4,0.2,0.5,0.3,0.6]`. -/
theorem align_robot_state_spec (rs : RobotStateV)
    (hq : 5 ≤ rs.q.length) (hdq : 5 ≤ rs.dq.length) (htau : 5 ≤ rs.tau.length) :
    ((align_robot_state rs).q.getD 1 0 = rs.q.getD 3 0 ∧
      (align_robot_state rs).q.getD 2 0 = rs.q.getD 1 0 ∧
      (align_robot_state rs).q.getD 3 0 = rs.q.getD 4 0 ∧
      (align_robot_state rs).q.getD 4 0 = rs.q.getD 2 0 ∧
      (align_robot_state rs).q.getD 0 0 = rs.q.getD 0 0 ∧
      ∀ i, 5 ≤ i → (align_robot_state rs).q.getD i 0 = rs.q.getD i 0) ∧
    ((align_robot_state rs).dq.getD 1 0 = rs.dq.getD 3 0 ∧
      (align_robot_state rs).dq.getD 2 0 = rs.dq.getD 1 0 ∧
      (align_robot_state rs).dq.getD 3 0 = rs.dq.getD 4 0 ∧
      (align_robot_state rs).dq.getD 4 0 = rs.dq.getD 2 0 ∧
      (align_robot_state rs).dq.getD 0 0 = rs.dq.getD 0 0 ∧
      ∀ i, 5 ≤ i → (align_robot_state rs).dq.getD i 0 = rs.dq.getD i 0) ∧
    ((align_robot_state rs).tau.getD 1 0 = rs.tau.getD 3 0 ∧
      (align_robot_state rs).tau.getD 2 0 = rs.tau.getD 1 0 ∧
      (align_robot_state rs).tau.getD 3 0 = rs.tau.getD 4 0 ∧
      (align_robot_state rs).tau.getD 4 0 = rs.tau.getD 2 0 ∧
      (align_robot_state rs).tau.getD 0 0 = rs.tau.getD 0 0 ∧
      ∀ i, 5 ≤ i → (align_robot_state rs).tau.getD i 0 = rs.tau.getD i 0) ∧
    (align_robot_state
        { q := [1/10, 2/10, 3/10, 4/10, 5/10, 6/10],
          dq := List.replicate 6 0, tau := List.replicate 6 0 }).q
      = [1/10, 4/10, 2/10, 5/10, 3/10, 6/10] := by
  obtain ⟨a, b, c, d, e, t, hq'⟩ := exists_cons5 rs.q hq
  obtain ⟨a2, b2, c2, d2, e2, t2, hdq'⟩ := exists_cons5 rs.dq hdq
  obtain ⟨a3, b3, c3, d3, e3, t3, htau'⟩ := exists_cons5 rs.tau htau
  rcases rs with ⟨q, dq, tau⟩
  simp only at hq' hdq' htau'
  subst hq' hdq' htau'
  refine ⟨⟨rfl, rfl, rfl, rfl, rfl, ?_⟩, ⟨rfl, rfl, rfl, rfl, rfl, ?_⟩,
      ⟨rfl, rfl, rfl, rfl, rfl, ?_⟩, rfl⟩ <;>
    · intro i hi
      obtain ⟨j, rfl⟩ : ∃ j, i = j + 5 := ⟨i - 5, by omega⟩
      simp [align_robot_state, List.getD]

/-- Witness for C6 at a concrete six-joint raw state. -/
theorem align_robot_state_spec_witness :
    (align_robot_state
        { q := [1/10, 2/10, 3/10, 4/10, 5/10, 6/10],
          dq := List.replicate 6 0, tau := List.replicate 6 0 }).q
      = [1/10, 4/10, 2/10, 5/10, 3/10, 6/10] :=
  (align_robot_state_spec
      { q := [1/10, 2/10, 3/10, 4/10, 5/10, 6/10],
        dq := List.replicate 6 0, tau := List.replicate 6 0 }
      (by decide) (by decide) (by decide)).2.2.2

/-- Length of a bounded-deque push: one more entry while below capacity,
capacity once full. -/
theorem pushQueue_length (cap : ℕ) (buf : List (List ℚ)) (x : List ℚ) :
    (pushQueue cap buf x).length = if buf.length < cap then buf.length + 1 else cap := by
  unfold pushQueue
  split_ifs with h
  · simp
  · simp only [List.length_drop, List.length_append, List.length_cons, List.length_nil]
    omega

/-- Pushing the tick's samples moves all eight deque lengths in lockstep. -/
theorem pushAll_bufLens (cap n : ℕ) (bufs : Buffers) (s : ObsSamples)
    (h : bufLens bufs n) :
    bufLens (pushAll cap bufs s) (if n < cap then n + 1 else cap) := by
  rcases h with ⟨h1, h2, h3, h4, h5, h6, h7, h8⟩
  refine ⟨?_, ?_, ?_, ?_, ?_, ?_, ?_, ?_⟩ <;>
    simp [pushAll, pushQueue_length, h1, h2, h3, h4, h5, h6, h7, h8]

/-- The pre-fill while loop brings all eight deques to exactly the capacity,
whenever the fuel covers the missing entries. -/
theorem fillLoop_bufLens (cap : ℕ) (s : ObsSamples) :
    ∀ (fuel n : ℕ) (bufs : Buffers), bufLens bufs n → n ≤ cap → cap ≤ n + fuel →
      bufLens (fillLoop cap s fuel bufs) cap := by
  intro fuel
  induction fuel with
  | zero =>
    intro n bufs h hn hfuel
    have : n = cap := by omega
    subst this
    exact h
  | succ f ih =>
    intro n bufs h hn hfuel
    simp only [fillLoop, h.1]
    split_ifs with hlt
    · have hp := pushAll_bufLens cap n bufs s h
      rw [if_pos hlt] at hp
      exact ih (n + 1) _ hp (by omega) (by omega)
    · have : n = cap := by omega
      subst this
      exact h

/-- One full deque update of `compute_observation` (pre-fill plus normal
push) leaves all eight deques at exactly the capacity. -/
theorem tickBuffers_bufLens (cap n : ℕ) (s : ObsSamples) (bufs : Buffers)
    (h : bufLens bufs n) (hn : n ≤ cap) :
    bufLens (tickBuffers cap s bufs) cap := by
  unfold tickBuffers
  have hf := fillLoop_bufLens cap s cap n bufs h hn (by omega)
  have hp := pushAll_bufLens cap cap _ s hf
  simpa using hp

/-- Later ticks preserve the full-deque invariant. -/
theorem foldl_tickBuffers_bufLens (cap : ℕ) (rest : List ObsSamples) :
    ∀ bufs : Buffers, bufLens bufs cap →
      bufLens (rest.foldl (fun b s => tickBuffers cap s b) bufs) cap := by
  induction rest with
  | nil => intro bufs h; exact h
  | cons s rest ih =>
    intro bufs h
    exact ih _ (tickBuffers_bufLens cap cap s bufs h le_rfl)

/-- C7: for any nonempty tick sequence, starting from the empty deques of
`__init__`, every one of the eight history buffers contains exactly the
configured capacity of entries after the first tick of
`compute_observation`, and the count is preserved by every later tick. -/
theorem historyBuffers_full (cap : ℕ) (ss : List ObsSamples) (h : ss ≠ []) :
    bufLens (ss.foldl (fun b s => tickBuffers cap s b) emptyBuffers) cap := by
  rcases ss with _ | ⟨s, rest⟩
  · exact absurd rfl h
  have h0 : bufLens emptyBuffers 0 := ⟨rfl, rfl, rfl, rfl, rfl, rfl, rfl, rfl⟩
  have h1 : bufLens (tickBuffers cap s emptyBuffers) cap :=
    tickBuffers_bufLens cap 0 s emptyBuffers h0 (Nat.zero_le _)
  simpa using foldl_tickBuffers_bufLens cap rest _ h1

/-- Witness for C7: a single tick with the concrete sample and capacity 2. -/
theorem historyBuffers_full_witness :
    ([sampleX] : List ObsSamples) ≠ [] ∧
      bufLens (([sampleX] : List ObsSamples).foldl
        (fun b s => tickBuffers 2 s b) emptyBuffers) 2 :=
  ⟨List.cons_ne_nil _ _, historyBuffers_full 2 [sampleX] (List.cons_ne_nil _ _)⟩

/-- C2 counterexample: with clip bound 100 and a history sample containing
200, the first element of the final Observation is the unclipped 200, while
the clipped history vector has 100 there: the Observation is not the
clipped history vector followed by the latent vector, and its history
portion is not within the bound. -/
theorem compute_observation_not_clipped :
    (compute_observation cfgX encX sampleX emptyBuffers).2.getD 0 0 = 200 ∧
      cfgX.clipObservations = 100 ∧
      (clipObs 100 (historyVec (compute_observation cfgX encX sampleX emptyBuffers).1)).getD 0 0
        = 100 ∧
      (200 : ℚ) ≠ 100 ∧ ¬ ((200 : ℚ) ≤ 100) := by
  refine ⟨rfl, rfl, ?_, by norm_num, by norm_num⟩
  show (clipObs 100 [(200 : ℚ)]).getD 0 0 = 100
  simp only [clipObs, List.map, List.getD, List.get?]
  norm_num

/-- C2 (amended): on every inference tick, the deques are updated, the
flattened history vector is clipped, the clipped vector is passed to the
encoder, and the final Observation is the unclipped history vector followed
by the latent vector; every element of the vector handed to the encoder
(not of the Observation's history portion) lies within the bound. -/
theorem compute_observation_spec (cfg : Cfg) (enc : List ℚ → List ℚ) (s : ObsSamples)
    (bufs : Buffers) (hb : 0 ≤ cfg.clipObservations) :
    (compute_observation cfg enc s bufs).1 = tickBuffers cfg.historyLength s bufs ∧
      (compute_observation cfg enc s bufs).2 =
        historyVec (compute_observation cfg enc s bufs).1 ++
          enc (clipObs cfg.clipObservations
            (historyVec (compute_observation cfg enc s bufs).1)) ∧
      ∀ x ∈ clipObs cfg.clipObservations
          (historyVec (compute_observation cfg enc s bufs).1),
        |x| ≤ cfg.clipObservations := by
  refine ⟨rfl, rfl, ?_⟩
  intro x hx
  simp only [clipObs, List.mem_map] at hx
  obtain ⟨y, -, rfl⟩ := hx
  rw [abs_le]
  refine ⟨le_min (by linarith) (le_max_left _ _), min_le_left _ _⟩

/-- Witness for C2 (amended) at the concrete configuration, encoder, sample
and the empty deques. -/
theorem compute_observation_spec_witness :
    (0 : ℚ) ≤ cfgX.clipObservations ∧
      (compute_observation cfgX encX sampleX emptyBuffers).2 =
        historyVec (compute_observation cfgX encX sampleX emptyBuffers).1 ++
          encX (clipObs cfgX.clipObservations
            (historyVec (compute_observation cfgX encX sampleX emptyBuffers).1)) :=
  ⟨by norm_num [cfgX],
    (compute_observation_spec cfgX encX sampleX emptyBuffers (by norm_num [cfgX])).2.1⟩

/-- A WALK tick never changes the mode (shared). -/
theorem handle_walk_mode_mode (cfg : Cfg) (policy enc : List ℚ → List ℚ)
    (env : TickEnv) (s : St) :
    (handle_walk_mode cfg policy enc env s).mode = s.mode := by
  simp only [handle_walk_mode]
  split_ifs <;> rfl

/-- One tick from a WALK-mode state stays in WALK mode (shared). -/
theorem update_mode_walk (cfg : Cfg) (policy enc : List ℚ → List ℚ)
    (env : TickEnv) (s : St) (h : s.mode = Mode.WALK) :
    (update cfg policy enc env s).mode = Mode.WALK := by
  simp only [update]
  rw [if_neg (by rw [h]; intro hc; exact Mode.noConfusion hc), if_pos h]
  rw [show ({ handle_walk_mode cfg policy enc env s with
      loopCount := (handle_walk_mode cfg policy enc env s).loopCount + 1 } : St).mode
    = (handle_walk_mode cfg policy enc env s).mode from rfl]
  rw [handle_walk_mode_mode]
  exact h

/-- C8: the mode transitions monotonically: from any state in WALK mode,
every number of further control-loop ticks leaves the mode at WALK — no
WALK-to-STAND transition exists in the step function `update`. -/
theorem mode_monotone (cfg : Cfg) (policy enc : List ℚ → List ℚ) (envs : ℕ → TickEnv)
    (s : St) (h : s.mode = Mode.WALK) (n : ℕ) :
    (runTicks cfg policy enc envs n s).mode = Mode.WALK := by
  induction n with
  | zero => exact h
  | succ n ih => exact update_mode_walk cfg policy enc (envs n) _ ih

/-- Witness for C8: three ticks from a concrete WALK-mode state. -/
theorem mode_monotone_witness :
    sW.mode = Mode.WALK ∧
      (runTicks cfgX encX encX (fun _ => envX) 3 sW).mode = Mode.WALK :=
  ⟨rfl, mode_monotone cfgX encX encX (fun _ => envX) sW rfl 3⟩

/-- Frame lemma (shared): one tick never touches the command's mode, dq,
tau, Kp or Kd arrays — both mode handlers only write `robot_cmd.q`. -/
theorem update_robotCmd_frame (cfg : Cfg) (policy enc : List ℚ → List ℚ)
    (env : TickEnv) (s : St) :
    (update cfg policy enc env s).robotCmd.mode = s.robotCmd.mode ∧
      (update cfg policy enc env s).robotCmd.dq = s.robotCmd.dq ∧
      (update cfg policy enc env s).robotCmd.tau = s.robotCmd.tau ∧
      (update cfg policy enc env s).robotCmd.Kp = s.robotCmd.Kp ∧
      (update cfg policy enc env s).robotCmd.Kd = s.robotCmd.Kd := by
  simp only [update, handle_stand_mode, handle_walk_mode]
  split_ifs <;> exact ⟨rfl, rfl, rfl, rfl, rfl⟩

/-- C10: over an entire run from the initial state, every tick (STAND or
WALK) updates only the `q` field of the published command: the `mode`,
`dq` and `tau` arrays stay all-zero and `Kp`/`Kd` stay at the configured
stiffness and damping, for every tick count `n`. -/
theorem robotCmd_static_fields (cfg : Cfg) (policy enc : List ℚ → List ℚ)
    (envs : ℕ → TickEnv) (aSz oSz n : ℕ) :
    (runTicks cfg policy enc envs n (initSt cfg aSz oSz)).robotCmd.mode
        = List.replicate cfg.initJointAngles.length 0 ∧
      (runTicks cfg policy enc envs n (initSt cfg aSz oSz)).robotCmd.dq
        = List.replicate cfg.initJointAngles.length 0 ∧
      (runTicks cfg policy enc envs n (initSt cfg aSz oSz)).robotCmd.tau
        = List.replicate cfg.initJointAngles.length 0 ∧
      (runTicks cfg policy enc envs n (initSt cfg aSz oSz)).robotCmd.Kp
        = List.replicate cfg.initJointAngles.length cfg.stiffness ∧
      (runTicks cfg policy enc envs n (initSt cfg aSz oSz)).robotCmd.Kd
        = List.replicate cfg.initJointAngles.length cfg.damping := by
  induction n with
  | zero => exact ⟨rfl, rfl, rfl, rfl, rfl⟩
  | succ n ih =>
    obtain ⟨h1, h2, h3, h4, h5⟩ := ih
    obtain ⟨f1, f2, f3, f4, f5⟩ :=
      update_robotCmd_frame cfg policy enc (envs n)
        (runTicks cfg policy enc envs n (initSt cfg aSz oSz))
    exact ⟨f1.trans h1, f2.trans h2, f3.trans h3, f4.trans h4, f5.trans h5⟩

/-- A STAND tick below the threshold stays in STAND and advances
`stand_percent` by the per-tick increment (shared). -/
theorem update_stand_step (cfg : Cfg) (policy enc : List ℚ → List ℚ)
    (env : TickEnv) (s : St) (h : s.mode = Mode.STAND) (hlt : s.standPercent < 1) :
    (update cfg policy enc env s).mode = Mode.STAND ∧
      (update cfg policy enc env s).standPercent =
        s.standPercent + 1 / (cfg.standDuration * cfg.loopFrequency) := by
  simp only [update]
  rw [if_pos h]
  simp only [handle_stand_mode]
  rw [if_pos hlt]
  exact ⟨h, rfl⟩

/-- A STAND tick at or above the threshold switches the mode to WALK and
leaves `stand_percent` unchanged (shared). -/
theorem update_stand_done (cfg : Cfg) (policy enc : List ℚ → List ℚ)
    (env : TickEnv) (s : St) (h : s.mode = Mode.STAND) (hge : ¬ s.standPercent < 1) :
    (update cfg policy enc env s).mode = Mode.WALK ∧
      (update cfg policy enc env s).standPercent = s.standPercent := by
  simp only [update]
  rw [if_pos h]
  simp only [handle_stand_mode]
  rw [if_neg hge]
  exact ⟨rfl, rfl⟩

/-- During the stand phase of the Scenario C run (stand duration 2 s, loop
frequency 500 Hz), after `k ≤ 999` ticks the mode is still STAND and
`stand_percent` is exactly `(1+k)/1000` (shared; the `1+` accounts for the
single increment performed in `run` before the loop). -/
theorem stand_phase : ∀ k : ℕ, k ≤ 999 →
    (runTicks cfgX encX encX (fun _ => envX) k (initSt cfgX 6 16)).mode = Mode.STAND ∧
      (runTicks cfgX encX encX (fun _ => envX) k (initSt cfgX 6 16)).standPercent
        = (1 + (k : ℚ)) / 1000 := by
  intro k
  induction k with
  | zero =>
    intro _
    refine ⟨rfl, ?_⟩
    show (0 : ℚ) + 1 / (cfgX.standDuration * cfgX.loopFrequency) = (1 + (0 : ℚ)) / 1000
    norm_num [cfgX]
  | succ k ih =>
    intro hk
    obtain ⟨hm, hp⟩ := ih (by omega)
    have hlt : (runTicks cfgX encX encX (fun _ => envX) k (initSt cfgX 6 16)).standPercent
        < 1 := by
      rw [hp, div_lt_one (by norm_num)]
      have hkq : (k : ℚ) ≤ 998 := by exact_mod_cast (by omega : k ≤ 998)
      linarith
    obtain ⟨sm, sp⟩ := update_stand_step cfgX encX encX envX _ hm hlt
    refine ⟨sm, ?_⟩
    have e : runTicks cfgX encX encX (fun _ => envX) (k + 1) (initSt cfgX 6 16)
        = update cfgX encX encX envX
            (runTicks cfgX encX encX (fun _ => envX) k (initSt cfgX 6 16)) := rfl
    rw [e, sp, hp]
    have hd : cfgX.standDuration * cfgX.loopFrequency = 1000 := by norm_num [cfgX]
    rw [hd]
    push_cast
    ring

/-- C9: with stand duration 2 s and loop frequency 500 Hz (per-tick
increment `1/(2*500)`, one increment already performed in `run` before the
loop), after 999 ticks the controller is still in STAND with
`stand_percent = 1` exactly, and the 1000th tick performs the transition to
WALK with `stand_percent` still exactly 1: exactly 1000 ticks elapse to
reach `stand_percent = 1.0` and transition to WALK. -/
theorem stand_to_walk_1000 :
    (runTicks cfgX encX encX (fun _ => envX) 999 (initSt cfgX 6 16)).mode
        = Mode.STAND ∧
      (runTicks cfgX encX encX (fun _ => envX) 999 (initSt cfgX 6 16)).standPercent = 1 ∧
      (runTicks cfgX encX encX (fun _ => envX) 1000 (initSt cfgX 6 16)).mode
        = Mode.WALK ∧
      (runTicks cfgX encX encX (fun _ => envX) 1000 (initSt cfgX 6 16)).standPercent
        = 1 := by
  obtain ⟨hm, hp⟩ := stand_phase 999 le_rfl
  have hp1 : (runTicks cfgX encX encX (fun _ => envX) 999 (initSt cfgX 6 16)).standPercent
      = 1 := by rw [hp]; norm_num
  have hnlt : ¬ (runTicks cfgX encX encX (fun _ => envX) 999
      (initSt cfgX 6 16)).standPercent < 1 := by
    rw [hp1]
    exact lt_irrefl 1
  obtain ⟨dm, dp⟩ := update_stand_done cfgX encX encX envX _ hm hnlt
  exact ⟨hm, hp1, dm, dp.trans hp1⟩

/-- Setting an entry to its own default-read value is the identity. -/
theorem set_getD_self : ∀ (l : List ℚ) (i : ℕ), l.set i (l.getD i 0) = l := by
  intro l
  induction l with
  | nil => intro i; rfl
  | cons a t ih =>
    intro i
    cases i with
    | zero => rfl
    | succ i =>
      show a :: t.set i (t.getD i 0) = a :: t
      rw [ih i]

/-- Writing at one index does not change the default-read at another. -/
theorem getD_set_ne (v : ℚ) : ∀ (l : List ℚ) (j i : ℕ), j ≠ i →
    (l.set j v).getD i 0 = l.getD i 0 := by
  intro l
  induction l with
  | nil => intro j i _; rfl
  | cons a t ih =>
    intro j i hne
    cases j with
    | zero =>
      cases i with
      | zero => exact absurd rfl hne
      | succ i => rfl
    | succ j =>
      cases i with
      | zero => rfl
      | succ i =>
        show (t.set j v).getD i 0 = t.getD i 0
        exact ih j i (fun h => hne (by rw [h]))

/-- The action-vector component of the triple fold of the WALK joint loop
is the in-place clamp fold (shared projection lemma). -/
theorem walkJointStep_fst (cfg : Cfg) (rs : RobotStateV) :
    ∀ (l : List ℕ) (acts lasts cmdq : List ℚ),
      (l.foldl (walkJointStep cfg rs) (acts, lasts, cmdq)).1 =
        l.foldl (clampStep cfg rs) acts := by
  intro l
  induction l with
  | nil => intro acts lasts cmdq; rfl
  | cons j l ih => intro acts lasts cmdq; exact ih _ _ _

/-- On a WALK tick whose loop count is not a multiple of the decimation,
`update` reduces to the state-alignment and the per-joint loop alone
(shared reduction lemma: the policy and encoder arguments are gone from the
right-hand side). -/
theorem update_walk_noninfer_eq (cfg : Cfg) (policy enc : List ℚ → List ℚ)
    (env : TickEnv) (s : St) (hm : s.mode = Mode.WALK)
    (hd : ¬ s.loopCount % cfg.decimation = 0) :
    update cfg policy enc env s =
      (let rsTmp := align_robot_state env.robotState
       let s1 := { s with robotStateTmp := rsTmp }
       let t := (List.range rsTmp.q.length).foldl (walkJointStep cfg rsTmp)
         (s1.actions, s1.lastActions, s1.robotCmd.q)
       { s1 with actions := t.1, lastActions := t.2.1,
                 robotCmd := { s1.robotCmd with q := t.2.2 },
                 loopCount := s1.loopCount + 1 }) := by
  have hST : ¬ s.mode = Mode.STAND := by
    rw [hm]; intro hc; exact Mode.noConfusion hc
  simp only [update, handle_walk_mode]
  rw [if_neg hST, if_pos hm, if_neg hd]

/-- Re-clamping a vector that already satisfies the live clamp bounds at
every index leaves it unchanged (shared). -/
theorem clampActions_id (cfg : Cfg) (rs : RobotStateV) (acts : List ℚ)
    (h : ∀ i, clampAction cfg.stiffness cfg.damping cfg.userTorqueLimit cfg.actionScalePos
      (cfg.initJointAngles.getD i 0) (rs.q.getD i 0) (rs.dq.getD i 0) (acts.getD i 0)
        = acts.getD i 0) :
    clampActions cfg rs acts = acts := by
  unfold clampActions
  generalize List.range rs.q.length = l
  induction l with
  | nil => rfl
  | cons j l ih =>
    show (l.foldl (clampStep cfg rs) (clampStep cfg rs acts j)) = acts
    unfold clampStep
    rw [h j, set_getD_self]
    exact ih

/-- A fold of clamp steps over indices different from `i` does not change
the entry at `i` (shared). -/
theorem clampFold_getD_untouched (cfg : Cfg) (rs : RobotStateV) :
    ∀ (l : List ℕ) (acts : List ℚ) (i : ℕ), (∀ j ∈ l, j ≠ i) →
      (l.foldl (clampStep cfg rs) acts).getD i 0 = acts.getD i 0 := by
  intro l
  induction l with
  | nil => intro acts i _; rfl
  | cons j l ih =>
    intro acts i hne
    show (l.foldl (clampStep cfg rs) (clampStep cfg rs acts j)).getD i 0 = acts.getD i 0
    rw [ih _ i (fun k hk => hne k (List.mem_cons_of_mem j hk))]
    exact getD_set_ne _ _ _ _ (hne j (List.mem_cons_self j l))

/-- C3 counterexample: on a non-inference WALK tick (loop count 1,
decimation 4) with stored action 10 at joint 0 and the live zero state
(clamp bounds ±4/3), the tick changes the stored action vector: entry 0
becomes 4/3 ≠ 10, so the action vector is not left unchanged. -/
theorem walk_actions_changed :
    sW.mode = Mode.WALK ∧ sW.loopCount % cfgX.decimation ≠ 0 ∧
      (update cfgX encX encX envX sW).actions.getD 0 0 = 4/3 ∧
      sW.actions.getD 0 0 = 10 ∧
      (update cfgX encX encX envX sW).actions ≠ sW.actions := by
  have hclamp : clampAction cfgX.stiffness cfgX.damping cfgX.userTorqueLimit
      cfgX.actionScalePos (cfgX.initJointAngles.getD 0 0)
      ((align_robot_state envX.robotState).q.getD 0 0)
      ((align_robot_state envX.robotState).dq.getD 0 0) (sW.actions.getD 0 0) = 4/3 := by
    show clampAction 30 1 20 (1/2) 0 0 0 10 = 4/3
    unfold clampAction
    norm_num
  have hact : (update cfgX encX encX envX sW).actions
      = clampActions cfgX (align_robot_state envX.robotState) sW.actions := by
    rw [update_walk_noninfer_eq cfgX encX encX envX sW rfl (by decide)]
    exact walkJointStep_fst cfgX (align_robot_state envX.robotState) _ _ _ _
  have hgetD : (update cfgX encX encX envX sW).actions.getD 0 0 = 4/3 := by
    rw [hact]
    show ((List.range 6).foldl (clampStep cfgX (align_robot_state envX.robotState))
      sW.actions).getD 0 0 = 4/3
    rw [show List.range 6 = [0, 1, 2, 3, 4, 5] from rfl]
    rw [show ([0, 1, 2, 3, 4, 5] : List ℕ).foldl (clampStep cfgX
        (align_robot_state envX.robotState)) sW.actions
      = ([1, 2, 3, 4, 5] : List ℕ).foldl (clampStep cfgX
        (align_robot_state envX.robotState))
          (clampStep cfgX (align_robot_state envX.robotState) sW.actions 0) from rfl]
    rw [clampFold_getD_untouched cfgX (align_robot_state envX.robotState)
      [1, 2, 3, 4, 5] _ 0 (by decide)]
    unfold clampStep
    rw [hclamp]
    rfl
  refine ⟨rfl, by decide, hgetD, rfl, ?_⟩
  intro hEq
  have h10 : (update cfgX encX encX envX sW).actions.getD 0 0 = 10 := by
    rw [hEq]; rfl
  rw [hgetD] at h10
  norm_num at h10

/-- C3 (amended): on every WALK-mode loop tick whose index is not a
multiple of the decimation, the tick consults neither the policy nor the
encoder and the stored action vector is modified only by the per-joint,
state-dependent safety clamp — so it is unchanged whenever it already
satisfies the live clamp bounds at every index — while the per-joint
position command is recomputed from the live aligned `q` and `dq` of that
tick. -/
theorem walk_noninference_frame (cfg : Cfg) (policy enc policy2 enc2 : List ℚ → List ℚ)
    (env : TickEnv) (s : St) (hm : s.mode = Mode.WALK)
    (hd : s.loopCount % cfg.decimation ≠ 0) :
    update cfg policy enc env s = update cfg policy2 enc2 env s ∧
      (update cfg policy enc env s).actions =
        clampActions cfg (align_robot_state env.robotState) s.actions ∧
      ((∀ i, clampAction cfg.stiffness cfg.damping cfg.userTorqueLimit cfg.actionScalePos
          (cfg.initJointAngles.getD i 0) ((align_robot_state env.robotState).q.getD i 0)
          ((align_robot_state env.robotState).dq.getD i 0) (s.actions.getD i 0)
            = s.actions.getD i 0) →
        (update cfg policy enc env s).actions = s.actions) ∧
      (update cfg policy enc env s).robotCmd.q =
        ((List.range (align_robot_state env.robotState).q.length).foldl
          (walkJointStep cfg (align_robot_state env.robotState))
          (s.actions, s.lastActions, s.robotCmd.q)).2.2 := by
  have hred := update_walk_noninfer_eq cfg policy enc env s hm hd
  have hred2 := update_walk_noninfer_eq cfg policy2 enc2 env s hm hd
  have hact : (update cfg policy enc env s).actions =
      clampActions cfg (align_robot_state env.robotState) s.actions := by
    rw [hred]
    exact walkJointStep_fst cfg (align_robot_state env.robotState) _ _ _ _
  refine ⟨hred.trans hred2.symm, hact, ?_, ?_⟩
  · intro hfix
    rw [hact]
    exact clampActions_id cfg (align_robot_state env.robotState) s.actions hfix
  · rw [hred]

/-- Witness for C3 (amended): a non-inference WALK tick at the concrete
state, with two different policy/encoder pairs. -/
theorem walk_noninference_frame_witness :
    sW.mode = Mode.WALK ∧ sW.loopCount % cfgX.decimation ≠ 0 ∧
      update cfgX encX encX envX sW = update cfgX encX2 encX2 envX sW :=
  ⟨rfl, by decide,
    (walk_noninference_frame cfgX encX encX encX2 encX2 envX sW rfl (by decide)).1⟩

end Pointfoot

